import Mathlib

/-!
# Verification of the OneMap API client (`src/onemap/main.py`)

Shallow embedding of the `OneMapAPI` dataclass: the retrying request
executor `_send_request`, the token machinery (`headers` / `access_token`
properties), the endpoint operations (`search`, `_reverse_search`) and the
batch orchestrator `searches`.

Conventions of the embedding:
* JSON values are the inductive `JValue`; a parsed HTTP response body is a
  `JValue` (modelling `json.loads(response.text)` as already applied, so a
  response carries its parsed body and the error message carries the body).
* The network is an oracle: a list of `HttpResponse` scripts what the
  transport returns for the successive attempts of one logical call
  (`_send_request` re-issues the identical request on 429, consuming the
  next response).  An empty script yields the distinguished `exhausted`
  error, cutting off the unbounded recursion.
* Python `dict` literals and `{**a, **b}` merges are association lists with
  Python's semantics: insertion order is kept, assigning to an existing key
  updates it in place (`pyInsert`), lookup finds the current value.
* Python floats are modelled as rationals; `int(x)` truncation toward zero
  is `pyInt`.
* `time.time()` is a single integer instant `now` per property call.
-/

namespace OneMap

/-- A parsed JSON value (`json.loads` output). -/
inductive JValue where
  | str : String → JValue
  | num : Int → JValue
  | arr : List JValue → JValue
  | obj : List (String × JValue) → JValue

instance : Inhabited JValue := ⟨.str ""⟩

/-- One JSON result record (`Result = dict[str, Any]` in the source). -/
abbrev Result := List (String × JValue)

/-- An HTTP response as the transport yields it: status code and parsed body. -/
structure HttpResponse where
  status : Nat
  body : JValue

/-- The Python exceptions the client can raise.  `requestError` is the
`ValueError` of `_send_request` (carrying status code and response body);
`credentialsError` is the `ValueError` of the `headers` property;
`exhausted` marks the response script running out (the cut-off of the
unbounded 429 recursion, not a Python exception). -/
inductive PyError where
  | requestError (status : Nat) (body : JValue)
  | credentialsError
  | keyError (k : String)
  | typeError
  | attributeError
  | exhausted

/-- Python `int(x)` for a rational: truncation toward zero (floor for
nonnegative values, ceiling for negative ones). -/
def pyInt (q : ℚ) : ℤ :=
  if 0 ≤ q then ⌊q⌋ else ⌈q⌉

/-- Python dict lookup on an association list (first entry with the key
holds the current value). -/
def pyLookup (d : List (String × α)) (k : String) : Option α :=
  (d.find? (fun p => p.1 == k)).map Prod.snd

/-- Python dict assignment `d[k] = v`: update the existing entry in place,
else append at the end (insertion order semantics). -/
def pyInsert (d : List (String × α)) (kv : String × α) : List (String × α) :=
  if d.any (fun p => p.1 == kv.1) then
    d.map (fun p => if p.1 == kv.1 then (p.1, kv.2) else p)
  else d ++ [kv]

/-- Build a Python dict by successive assignments starting from `init`:
models both dict literals `{k1: v1, ..., **kwargs}` and loops of
`d[k] = v` statements. -/
def pyDict (init : List (String × α)) (l : List (String × α)) : List (String × α) :=
  l.foldl pyInsert init

/-- Python `int(v)` on a JSON value: numbers pass through, numeric strings
are parsed, anything else fails. -/
def pyToInt (v : JValue) : Option Int :=
  match v with
  | .num n => some n
  | .str s => s.toInt?
  | _ => none

/-- Python `f"{v}"` rendering of a JSON value, as used when the client
builds query strings.  Strings and numbers — the only values the
repository ever interpolates — are rendered exactly; containers are an
opaque placeholder. -/
def pyStr : JValue → String
  | .str s => s
  | .num n => toString n
  | .arr _ => "[...]"
  | .obj _ => "\x7b...\x7d"

/-- `OneMapAPI._send_request` (main.py lines 27-55) on a scripted list of
transport responses.  On 429: sleep `int(backoff)` seconds and retry with
`backoff * mult` (the recursion of lines 43-50); on any other status
`≥ 300`: raise carrying status and body (lines 51-54); otherwise return the
parsed body (line 55).  The second component collects the slept durations
in order.  Header acquisition (`self.headers`) is abstracted into the
response oracle. -/
def send_request (mult : ℚ) (backoff : ℚ) :
    List HttpResponse → Except PyError JValue × List ℤ
  | [] => (.error .exhausted, [])
  | r :: rest =>
    if r.status == 429 then
      let rec_result := send_request mult (backoff * mult) rest
      (rec_result.1, pyInt backoff :: rec_result.2)
    else if 300 ≤ r.status then
      (.error (.requestError r.status r.body), [])
    else
      (.ok r.body, [])

/-- The mutable token state of an `OneMapAPI` instance: `headersCache` is
the `_headers` attribute when set (the dict value), `tokenCache` the pair
`(_access_token, _access_token_expiry)` when set (the two attributes are
only ever assigned together, main.py lines 81-82). -/
structure ClientState where
  headersCache : Option JValue
  tokenCache : Option (JValue × Int)

/-- Extraction of `response["access_token"]` and
`int(response["expiry_timestamp"])` from the auth response body
(main.py lines 81-82). -/
def parse_auth (body : JValue) : Except PyError (JValue × Int) :=
  match body with
  | .obj l =>
    match pyLookup l "access_token" with
    | none => .error (.keyError "access_token")
    | some tok =>
      match pyLookup l "expiry_timestamp" with
      | none => .error (.keyError "expiry_timestamp")
      | some expv =>
        match pyToInt expv with
        | none => .error .typeError
        | some e => .ok (tok, e)
  | _ => .error .typeError

/-- The two assignments of the refresh branch (main.py lines 81-82):
store `_access_token` and `_access_token_expiry` from the parsed auth
response. -/
def store_token (s : ClientState) (r : Except PyError (JValue × Int)) :
    Except PyError (JValue × ClientState) :=
  match r with
  | .error e => .error e
  | .ok (tok, exp) => .ok (tok, { s with tokenCache := some (tok, exp) })

/-- The refresh branch of the `access_token` property (main.py lines
75-88): POST the credentials to the auth endpoint through `_send_request`
(so the auth exchange inherits its 429 retry), then store token and expiry.
`auth` scripts the auth endpoint's responses. -/
def refresh_token (mult : ℚ) (auth : List HttpResponse) (s : ClientState) :
    Except PyError (JValue × ClientState) × List ℤ :=
  let sent := send_request mult 1 auth
  (match sent.1 with
   | .error e => .error e
   | .ok body => store_token s (parse_auth body)
   , sent.2)

/-- The `access_token` property (main.py lines 69-89): refresh when no
token attribute exists or `now > expiry` (note: strict, so at
`now = expiry` the cached token is returned unrefreshed), else return the
cached token. -/
def access_token (mult : ℚ) (now : Int) (auth : List HttpResponse) (s : ClientState) :
    Except PyError (JValue × ClientState) × List ℤ :=
  match s.tokenCache with
  | none => refresh_token mult auth s
  | some (tok, exp) =>
    if now > exp then refresh_token mult auth s
    else (.ok (tok, s), [])

/-- The `elif` branch of the `headers` property (main.py lines 61-66):
with nonempty credentials rebuild `{"Authorization": self.access_token}`
and cache it; with missing credentials (Python truthiness: either string
empty) raise before any auth request is made. -/
def headers_refresh (mult : ℚ) (now : Int) (auth : List HttpResponse)
    (email password : String) (s : ClientState) :
    Except PyError (JValue × ClientState) × List ℤ :=
  if email ≠ "" ∧ password ≠ "" then
    match access_token mult now auth s with
    | (.ok (tok, s'), sleeps) =>
      (.ok (.obj [("Authorization", tok)],
        { s' with headersCache := some (.obj [("Authorization", tok)]) }), sleeps)
    | (.error e, sleeps) => (.error e, sleeps)
  else (.error .credentialsError, [])

/-- The `headers` property (main.py lines 57-67): return the cached
`_headers` while `expiry > now`; otherwise fall to the `elif` branch
(`headers_refresh`).  Reading `_access_token_expiry` when `_headers`
exists but the token attributes do not would be an `AttributeError`
(unreachable through this API's own flow). -/
def headers (mult : ℚ) (now : Int) (auth : List HttpResponse)
    (email password : String) (s : ClientState) :
    Except PyError (JValue × ClientState) × List ℤ :=
  match s.headersCache, s.tokenCache with
  | some h, some (_, exp) =>
    if exp > now then (.ok (h, s), [])
    else headers_refresh mult now auth email password s
  | some _, none => (.error .attributeError, [])
  | none, _ => headers_refresh mult now auth email password s

/-- Well-formedness of the client state as maintained by the `headers`
property: a cached `_headers` dict always wraps the cached token. -/
def WFState (s : ClientState) : Prop :=
  ∀ h, s.headersCache = some h →
    ∃ tok exp, s.tokenCache = some (tok, exp) ∧ h = JValue.obj [("Authorization", tok)]

/-- The fixed defaults of `_reverse_search` (main.py line 92). -/
def reverseDefaults : List (String × JValue) :=
  [("buffer", .num 40), ("addressType", .str "All"), ("otherFeatures", .str "N")]

/-- The parameter merge of `_reverse_search` (main.py line 92):
`{"buffer": 40, "addressType": "All", "otherFeatures": "N", **kwargs}`. -/
def reverseParams (overrides : List (String × JValue)) : List (String × JValue) :=
  pyDict reverseDefaults overrides

/-- The URL `_reverse_search` issues (main.py line 93). -/
def reverseUrl (urlBase : String) (overrides : List (String × JValue)) : String :=
  urlBase ++ String.intercalate "&" ((reverseParams overrides).map
    (fun p => p.1 ++ "=" ++ pyStr p.2))

/-- `OneMapAPI._reverse_search` (main.py lines 91-95): merge the parameter
defaults with the caller overrides, issue the GET, return
`response.get("results", [])` (the raw value, defaulting to the empty
list).  `search_xy` and `search_latlon` call this with a single `location`
override.  `env` maps the request URL to the transport's scripted
responses. -/
def reverse_search (mult : ℚ) (urlBase : String)
    (overrides : List (String × JValue)) (env : String → List HttpResponse) :
    Except PyError JValue × List ℤ :=
  let sent := send_request mult 1 (env (reverseUrl urlBase overrides))
  (match sent.1 with
   | .error e => .error e
   | .ok body =>
     match body with
     | .obj l => .ok ((pyLookup l "results").getD (.arr []))
     | _ => .error .attributeError
   , sent.2)

/-- The URL `search` issues (main.py line 126). -/
def searchUrl (base q : String) : String :=
  base ++ "/common/elastic/search?searchVal=" ++ q ++
    "&returnGeom=Y&getAddrDetails=Y&pageNum=1"

/-- The list comprehension `[{"query": query, **result} for result in
results]` (main.py lines 129-131): each record must be a dict; the literal
puts the `query` tag first and then spreads the record over it, so a
record's own `query` key overwrites the tag. -/
def tagResults (q : String) : List JValue → Except PyError (List Result)
  | [] => .ok []
  | .obj fields :: rest =>
    match tagResults q rest with
    | .ok recs => .ok (pyDict [("query", JValue.str q)] fields :: recs)
    | .error e => .error e
  | _ :: _ => .error .typeError

/-- The result-shaping step of `search` (main.py lines 128-131):
`response.get("results", [])` followed by the tagging comprehension. -/
def extract_results (q : String) (body : JValue) : Except PyError (List Result) :=
  match body with
  | .obj l =>
    match pyLookup l "results" with
    | none => tagResults q []
    | some (.arr rs) => tagResults q rs
    | some _ => .error .typeError
  | _ => .error .attributeError

/-- `OneMapAPI.search` (main.py lines 122-132): issue the single-page
elastic search, take `response.get("results", [])`, and tag each record
with the originating query. -/
def search (mult : ℚ) (base q : String) (env : String → List HttpResponse) :
    Except PyError (List Result) × List ℤ :=
  let sent := send_request mult 1 (env (searchUrl base q))
  (match sent.1 with
   | .error e => .error e
   | .ok body => extract_results q body
   , sent.2)

/-- What the batch loop stores for one completed future (main.py lines
152-155): the record list on success, the single-element
`[{"error": str(e)}]` on a caught exception. -/
def outcomeRecords (o : Except String (List Result)) : List Result :=
  match o with
  | .ok rl => rl
  | .error msg => [[("error", JValue.str msg)]]

/-- The dict entry the batch loop writes when the future of submission
index `i` completes: key `future_to_query[fut] = queries[i]`, value from
`fut.result()` (modelled by the `outcomes` oracle). -/
def completedEntry (queries : List String)
    (outcomes : List (Except String (List Result))) (i : Nat) :
    String × List Result :=
  (queries.getD i "", outcomeRecords (outcomes.getD i (.ok [])))

/-- `OneMapAPI.searches` (main.py lines 134-156): one future per query is
submitted (futures are distinct objects even for equal query strings);
`as_completed` yields them in some completion order, modelled by `order`,
a permutation of the submission indices; each completion assigns
`results[q]` in the Python dict `results`.  `outcomes.get i` models
`fut.result()` of the `i`-th submitted `search` call: `.ok` its return,
`.error` the message of the exception it raised (caught by the loop). -/
def searches (queries : List String)
    (outcomes : List (Except String (List Result))) (order : List Nat) :
    List (String × List Result) :=
  pyDict [] (order.map (completedEntry queries outcomes))

/-!
## Interleaving model of concurrent `access_token` evaluation

`searches` workers share the instance; each worker evaluating the
`access_token` property (main.py lines 69-89) performs two observable
steps with no lock between them: (1) the expiry check of lines 71-74,
(2) the refresh of lines 75-82 (network call plus both assignments,
taken as one atomic step — coarser atomicity only removes races).
`authCount` counts auth requests issued; the `i`-th refresh to start
receives the distinct token `freshTok i`.
-/

/-- The check `not hasattr(self, "_access_token") or time.time() >
self._access_token_expiry`. -/
def expiredCheck (now : Int) (cache : Option (JValue × Int)) : Bool :=
  match cache with
  | none => true
  | some (_, exp) => now > exp

/-- The token the `i`-th issued auth request returns (distinct per
request, so duplicate refreshes are observable). -/
def freshTok (i : Nat) : JValue := .num i

/-- Shared state plus the two workers' program counters and results.
`pc = 0`: before the expiry check; `pc = 1`: check saw an expired token,
refresh pending; `pc = 2`: done, `res` holds the token returned. -/
structure ConcState where
  cache : Option (JValue × Int)
  authCount : Nat
  pc0 : Nat
  pc1 : Nat
  res0 : Option JValue
  res1 : Option JValue

/-- One atomic step of worker `tid` (`false` = worker 0). -/
def step (now freshExp : Int) (tid : Bool) (s : ConcState) : ConcState :=
  if tid = false then
    match s.pc0 with
    | 0 =>
      if expiredCheck now s.cache then { s with pc0 := 1 }
      else { s with pc0 := 2, res0 := s.cache.map Prod.fst }
    | 1 =>
      let tok := freshTok s.authCount
      { s with cache := some (tok, freshExp), authCount := s.authCount + 1,
               pc0 := 2, res0 := some tok }
    | _ => s
  else
    match s.pc1 with
    | 0 =>
      if expiredCheck now s.cache then { s with pc1 := 1 }
      else { s with pc1 := 2, res1 := s.cache.map Prod.fst }
    | 1 =>
      let tok := freshTok s.authCount
      { s with cache := some (tok, freshExp), authCount := s.authCount + 1,
               pc1 := 2, res1 := some tok }
    | _ => s

/-- Run a schedule (list of thread ids) from a state. -/
def run (now freshExp : Int) (sched : List Bool) (s : ConcState) : ConcState :=
  sched.foldl (fun s t => step now freshExp t s) s

/-!
## Lemmas about the Python dict embedding
-/

section DictLemmas

variable {α : Type}

theorem fst_update (p : String × α) (k : String) (v : α) :
    (if p.1 == k then (p.1, v) else p).1 = p.1 := by
  split <;> rfl

theorem pyInsert_eq_update (d : List (String × α)) (k : String) (v : α)
    (h : d.any (fun p => p.1 == k) = true) :
    pyInsert d (k, v) = d.map (fun p => if p.1 == k then (p.1, v) else p) := by
  unfold pyInsert
  exact if_pos h

theorem pyInsert_eq_append (d : List (String × α)) (k : String) (v : α)
    (h : d.any (fun p => p.1 == k) = false) :
    pyInsert d (k, v) = d ++ [(k, v)] := by
  unfold pyInsert
  exact if_neg (by simp [h])

theorem find?_map_update (d : List (String × α)) (k : String) (v : α) :
    (d.map (fun p => if p.1 == k then (p.1, v) else p)).find? (fun p => p.1 == k)
      = (d.find? (fun p => p.1 == k)).map (fun p => (p.1, v)) := by
  induction d with
  | nil => rfl
  | cons p t ih =>
    by_cases hpk : p.1 = k
    · simp [List.find?_cons, hpk]
    · simp [List.find?_cons, hpk] at ih ⊢
      exact ih

theorem find?_map_update_ne (d : List (String × α)) (k k' : String) (v : α)
    (h : k' ≠ k) :
    (d.map (fun p => if p.1 == k then (p.1, v) else p)).find? (fun p => p.1 == k')
      = d.find? (fun p => p.1 == k') := by
  induction d with
  | nil => rfl
  | cons p t ih =>
    by_cases hpk : p.1 = k
    · have hne' : ¬p.1 = k' := by rw [hpk]; exact Ne.symm h
      simp [List.find?_cons, hpk, hne', Ne.symm h] at ih ⊢
      exact ih
    · by_cases hpk' : p.1 = k'
      · simp [List.find?_cons, hpk, hpk', h]
      · simp [List.find?_cons, hpk, hpk'] at ih ⊢
        exact ih

theorem pyLookup_pyInsert_self (d : List (String × α)) (k : String) (v : α) :
    pyLookup (pyInsert d (k, v)) k = some v := by
  cases h : d.any (fun p => p.1 == k) with
  | true =>
    have hsome : (d.find? (fun p => p.1 == k)).isSome = true := by
      rw [List.find?_isSome]
      obtain ⟨p, hp, hpk⟩ := List.any_eq_true.mp h
      exact ⟨p, hp, hpk⟩
    obtain ⟨q, hq⟩ := Option.isSome_iff_exists.mp hsome
    rw [pyLookup, pyInsert_eq_update d k v h, find?_map_update, hq]
    rfl
  | false =>
    have hnone : d.find? (fun p => p.1 == k) = none :=
      List.find?_eq_none.mpr (List.any_eq_false.mp h)
    rw [pyLookup, pyInsert_eq_append d k v h, List.find?_append, hnone]
    simp [List.find?_cons]

theorem pyLookup_pyInsert_ne (d : List (String × α)) (k k' : String) (v : α)
    (h : k' ≠ k) : pyLookup (pyInsert d (k, v)) k' = pyLookup d k' := by
  cases hany : d.any (fun p => p.1 == k) with
  | true =>
    rw [pyLookup, pyInsert_eq_update d k v hany, find?_map_update_ne d k k' v h]
    rfl
  | false =>
    have hlast : List.find? (fun p => p.1 == k') [(k, v)] = none := by
      simp [List.find?_cons, Ne.symm h]
    rw [pyLookup, pyInsert_eq_append d k v hany, List.find?_append, hlast,
      Option.or_none]
    rfl

theorem keys_pyInsert_mem (d : List (String × α)) (k : String) (v : α)
    (h : d.any (fun p => p.1 == k) = true) :
    (pyInsert d (k, v)).map Prod.fst = d.map Prod.fst := by
  rw [pyInsert_eq_update d k v h, List.map_map]
  exact List.map_congr_left fun p _ => fst_update p k v

theorem keys_pyInsert_not_mem (d : List (String × α)) (k : String) (v : α)
    (h : d.any (fun p => p.1 == k) = false) :
    (pyInsert d (k, v)).map Prod.fst = d.map Prod.fst ++ [k] := by
  rw [pyInsert_eq_append d k v h, List.map_append]
  rfl

theorem keys_toFinset_pyInsert (d : List (String × α)) (k : String) (v : α) :
    ((pyInsert d (k, v)).map Prod.fst).toFinset
      = insert k (d.map Prod.fst).toFinset := by
  cases hany : d.any (fun p => p.1 == k) with
  | true =>
    rw [keys_pyInsert_mem d k v hany]
    obtain ⟨p, hp, hpk⟩ := List.any_eq_true.mp hany
    have hk : k ∈ d.map Prod.fst := by
      have : p.1 = k := by simpa using hpk
      exact this ▸ List.mem_map_of_mem Prod.fst hp
    rw [Finset.insert_eq_self.mpr (List.mem_toFinset.mpr hk)]
  | false =>
    rw [keys_pyInsert_not_mem d k v hany, List.toFinset_append]
    simp [Finset.union_comm, Finset.insert_eq]

theorem keys_toFinset_pyDict (init l : List (String × α)) :
    ((pyDict init l).map Prod.fst).toFinset
      = (init.map Prod.fst).toFinset ∪ (l.map Prod.fst).toFinset := by
  induction l generalizing init with
  | nil => simp [pyDict]
  | cons p t ih =>
    obtain ⟨k, v⟩ := p
    have hstep : pyDict init ((k, v) :: t) = pyDict (pyInsert init (k, v)) t := rfl
    rw [hstep, ih, keys_toFinset_pyInsert]
    simp [Finset.insert_union, Finset.union_insert]

theorem keys_nodup_pyInsert (d : List (String × α)) (kv : String × α)
    (h : (d.map Prod.fst).Nodup) : ((pyInsert d kv).map Prod.fst).Nodup := by
  obtain ⟨k, v⟩ := kv
  cases hany : d.any (fun p => p.1 == k) with
  | true => rw [keys_pyInsert_mem d k v hany]; exact h
  | false =>
    rw [keys_pyInsert_not_mem d k v hany]
    refine List.nodup_append.mpr ⟨h, List.nodup_singleton k, ?_⟩
    intro a ha hak
    have hak' : a = k := by simpa using hak
    subst hak'
    obtain ⟨p, hp, hpk⟩ := List.mem_map.mp ha
    have : d.any (fun p => p.1 == a) = true :=
      List.any_eq_true.mpr ⟨p, hp, by simp [hpk]⟩
    simp [this] at hany

theorem keys_nodup_pyDict (init l : List (String × α))
    (h : (init.map Prod.fst).Nodup) : ((pyDict init l).map Prod.fst).Nodup := by
  induction l generalizing init with
  | nil => exact h
  | cons p t ih => exact ih (pyInsert init p) (keys_nodup_pyInsert init p h)

theorem pyLookup_pyDict_of_ne (init l : List (String × α)) (k : String)
    (h : ∀ p ∈ l, p.1 ≠ k) : pyLookup (pyDict init l) k = pyLookup init k := by
  induction l generalizing init with
  | nil => rfl
  | cons p t ih =>
    have hstep : pyDict init (p :: t) = pyDict (pyInsert init p) t := rfl
    rw [hstep, ih (pyInsert init p) (fun q hq => h q (List.mem_cons_of_mem p hq))]
    obtain ⟨k', v⟩ := p
    exact pyLookup_pyInsert_ne init k' k v (Ne.symm (h (k', v) (List.mem_cons_self _ _)))

theorem pyLookup_pyDict_last_write (init l₁ l₂ : List (String × α)) (k : String)
    (v : α) (h : ∀ p ∈ l₂, p.1 ≠ k) :
    pyLookup (pyDict init (l₁ ++ (k, v) :: l₂)) k = some v := by
  have hsplit : pyDict init (l₁ ++ (k, v) :: l₂)
      = pyDict (pyInsert (pyDict init l₁) (k, v)) l₂ := by
    unfold pyDict
    rw [List.foldl_append]
    rfl
  rw [hsplit, pyLookup_pyDict_of_ne _ _ _ h]
  exact pyLookup_pyInsert_self _ k v

theorem pyLookup_pyDict_isSome (init l : List (String × α)) (k : String)
    (h : (pyLookup init k).isSome) : (pyLookup (pyDict init l) k).isSome := by
  induction l generalizing init with
  | nil => exact h
  | cons p t ih =>
    refine ih (pyInsert init p) ?_
    obtain ⟨k', v⟩ := p
    by_cases hk : k' = k
    · subst hk
      rw [pyLookup_pyInsert_self]
      rfl
    · rw [pyLookup_pyInsert_ne init k' k v (Ne.symm hk)]
      exact h

end DictLemmas

theorem map_getD_range (l : List α) (d : α) :
    (List.range l.length).map (fun i => l.getD i d) = l := by
  induction l with
  | nil => rfl
  | cons a t ih =>
    rw [List.length_cons, List.range_succ_eq_map, List.map_cons, List.map_map]
    have hcomp : ((fun i => (a :: t).getD i d) ∘ Nat.succ) = fun i => t.getD i d :=
      funext fun i => rfl
    rw [hcomp, ih]
    rfl

theorem getD_ne_of_nodup (l : List String) (h : l.Nodup) (i j : Nat)
    (hi : i < l.length) (hj : j < l.length) (hne : i ≠ j) :
    l.getD i "" ≠ l.getD j "" := by
  rw [List.getD_eq_getElem l "" hi, List.getD_eq_getElem l "" hj]
  intro heq
  exact hne ((List.Nodup.getElem_inj_iff h).mp heq)

/-!
## Claims about the retrying request executor (`_send_request`)
-/

/-- Claim C1, counterexample.  The claim states that on the response
sequence `[429, 429, 200]` the second sleep duration equals the first
multiplied by `backoff_multiplier`.  With the client's own defaults
(initial backoff 1, multiplier 3/2) the code sleeps `int(backoff)`
seconds (`time.sleep(int(backoff))`, main.py line 43), so both sleeps
last 1 second, while the claim demands a second sleep of 1 × 3/2. -/
theorem send_request_second_sleep_not_multiplied :
    send_request (3/2) 1
        [⟨429, .obj []⟩, ⟨429, .obj []⟩, ⟨200, .str "payload"⟩]
      = (.ok (.str "payload"), [1, 1])
    ∧ ¬ ((1 : ℚ) = (1 : ℚ) * (3/2)) := by
  constructor
  · have h1 : pyInt 1 = 1 := by norm_num [pyInt]
    have h2 : pyInt (1 * (3/2)) = 1 := by norm_num [pyInt]
    have h0 : send_request (3/2) 1
          [⟨429, .obj []⟩, ⟨429, .obj []⟩, ⟨200, .str "payload"⟩]
        = (.ok (.str "payload"), [pyInt 1, pyInt (1 * (3/2))]) := rfl
    rw [h0, h1, h2]
  · norm_num

/-- Claim C1 (amended).  On a response sequence `[429, 429, <300]`,
`_send_request` returns the parsed success payload after exactly two
backoff sleeps without raising on the 429s; the backoff value passed to
the second retry is the first backoff multiplied by
`backoff_multiplier`, but each slept duration is the integer truncation
`int(backoff)` of the current backoff — so the second sleep is
`int(b * mult)`, not the first sleep times the multiplier. -/
theorem send_request_429_two_retries (mult b : ℚ) (r1 r2 r3 : HttpResponse)
    (h1 : r1.status = 429) (h2 : r2.status = 429) (h3 : r3.status < 300) :
    send_request mult b [r1, r2, r3]
      = (.ok r3.body, [pyInt b, pyInt (b * mult)]) := by
  have hne : (r3.status == 429) = false := beq_eq_false_iff_ne.mpr (by omega)
  have hlt : ¬ 300 ≤ r3.status := by omega
  simp [send_request, h1, h2, hne, hlt]

/-- Claim C1, witness for the amended theorem: with multiplier 2 the
sleeps are `int(1) = 1` and `int(1 * 2) = 2` seconds. -/
theorem send_request_429_two_retries_witness :
    send_request 2 1 [⟨429, .obj []⟩, ⟨429, .obj []⟩, ⟨200, .num 5⟩]
      = (.ok (.num 5), [1, 2]) := by
  have h := send_request_429_two_retries 2 1 ⟨429, .obj []⟩ ⟨429, .obj []⟩
    ⟨200, .num 5⟩ rfl rfl (by norm_num)
  rw [h]
  norm_num [pyInt]

/-- Claim C2.  Any response with status `≥ 300` other than 429 makes
`_send_request` raise immediately (main.py lines 51-54): the error
carries the status code and the response body, no sleep happens, and no
retry consumes any further scripted response (the result is independent
of `rest`), so the error propagates to the caller. -/
theorem send_request_non429_error (mult b : ℚ) (r : HttpResponse)
    (rest : List HttpResponse) (h1 : 300 ≤ r.status) (h2 : r.status ≠ 429) :
    send_request mult b (r :: rest)
      = (.error (.requestError r.status r.body), []) := by
  have hne : (r.status == 429) = false := beq_eq_false_iff_ne.mpr h2
  simp [send_request, hne, h1]

/-- Claim C2, witness: a single 404 fails at once with zero sleeps. -/
theorem send_request_non429_error_witness :
    send_request (3/2) 1 [⟨404, .str "not found"⟩]
      = (.error (.requestError 404 (.str "not found")), []) :=
  send_request_non429_error (3/2) 1 ⟨404, .str "not found"⟩ []
    (by norm_num) (by norm_num)

/-!
## Claims about the endpoint operations
-/

/-- Claim C5.  The reverse-geocode parameter set is the fixed defaults
`{buffer: 40, addressType: "All", otherFeatures: "N"}` merged with the
caller's keyword overrides (main.py line 92): every override key wins
over the default of the same name, and every default whose key is not
overridden keeps its value.  (Keyword-argument keys are distinct, hence
the `Nodup` hypothesis.) -/
theorem reverse_params_merge (overrides : List (String × JValue))
    (hnd : (overrides.map Prod.fst).Nodup) :
    (∀ k v, (k, v) ∈ overrides → pyLookup (reverseParams overrides) k = some v)
    ∧ (∀ k v, (k, v) ∈ reverseDefaults → k ∉ overrides.map Prod.fst →
        pyLookup (reverseParams overrides) k = some v) := by
  constructor
  · intro k v hkv
    obtain ⟨pre, post, rfl⟩ := List.append_of_mem hkv
    have hpost : ∀ p ∈ post, p.1 ≠ k := by
      intro p hp
      rw [List.map_append, List.map_cons] at hnd
      have h2 := (List.nodup_append.mp hnd).2.1
      have hk_not : k ∉ post.map Prod.fst := (List.nodup_cons.mp h2).1
      intro he
      exact hk_not (he ▸ List.mem_map_of_mem Prod.fst hp)
    exact pyLookup_pyDict_last_write reverseDefaults pre post k v hpost
  · intro k v hkv hnot
    have hov : ∀ p ∈ overrides, p.1 ≠ k := by
      intro p hp he
      exact hnot (he ▸ List.mem_map_of_mem Prod.fst hp)
    have hu : pyLookup (reverseParams overrides) k = pyLookup reverseDefaults k :=
      pyLookup_pyDict_of_ne reverseDefaults overrides k hov
    rw [hu]
    simp only [reverseDefaults, List.mem_cons, List.mem_singleton,
      List.not_mem_nil, or_false] at hkv
    rcases hkv with h | h | h <;>
      (rw [Prod.mk.injEq] at h; obtain ⟨hk, hv⟩ := h; subst hk; subst hv; rfl)

/-- Claim C5, witness: overriding `otherFeatures` with `"Y"` yields
`otherFeatures = Y` while `buffer = 40` and `addressType = All` stay. -/
theorem reverse_params_merge_witness :
    pyLookup (reverseParams [("otherFeatures", JValue.str "Y")]) "otherFeatures"
        = some (JValue.str "Y")
    ∧ pyLookup (reverseParams [("otherFeatures", JValue.str "Y")]) "buffer"
        = some (JValue.num 40)
    ∧ pyLookup (reverseParams [("otherFeatures", JValue.str "Y")]) "addressType"
        = some (JValue.str "All") := by
  have h := reverse_params_merge [("otherFeatures", JValue.str "Y")] (by simp)
  refine ⟨h.1 _ _ (by simp), h.2 _ _ (by simp [reverseDefaults]) (by simp),
    h.2 _ _ (by simp [reverseDefaults]) (by simp)⟩

/-- Claim C10.  A successful (status < 300) JSON object response with no
`results` key makes both `search` and `_reverse_search` return the empty
list without raising (`response.get("results", [])`, main.py lines 95 and
128). -/
theorem missing_results_key_empty :
    (∀ (mult : ℚ) (base q : String) (env : String → List HttpResponse)
        (r : HttpResponse) (rest : List HttpResponse)
        (l : List (String × JValue)),
      env (searchUrl base q) = r :: rest → r.status < 300 → r.body = .obj l →
      pyLookup l "results" = none →
      search mult base q env = (.ok [], []))
    ∧ (∀ (mult : ℚ) (ub : String) (overrides : List (String × JValue))
        (env : String → List HttpResponse) (r : HttpResponse)
        (rest : List HttpResponse) (l : List (String × JValue)),
      env (reverseUrl ub overrides) = r :: rest → r.status < 300 →
      r.body = .obj l → pyLookup l "results" = none →
      reverse_search mult ub overrides env = (.ok (.arr []), [])) := by
  constructor
  · intro mult base q env r rest l henv hst hbody hres
    have hne : (r.status == 429) = false := beq_eq_false_iff_ne.mpr (by omega)
    have hlt : ¬ 300 ≤ r.status := by omega
    simp [search, extract_results, henv, send_request, hne, hlt, hbody, hres,
      tagResults]
  · intro mult ub overrides env r rest l henv hst hbody hres
    have hne : (r.status == 429) = false := beq_eq_false_iff_ne.mpr (by omega)
    have hlt : ¬ 300 ≤ r.status := by omega
    simp [reverse_search, henv, send_request, hne, hlt, hbody, hres]

/-- Claim C10, witness: concrete responses without a `results` key give
the empty list from both operations. -/
theorem missing_results_key_empty_witness :
    search 1 "b" "q" (fun _ => [⟨200, .obj [("found", .str "0")]⟩]) = (.ok [], [])
    ∧ reverse_search 1 "b?" [] (fun _ => [⟨200, .obj []⟩]) = (.ok (.arr []), []) := by
  refine ⟨missing_results_key_empty.1 1 "b" "q" _ _ [] [("found", .str "0")]
      rfl (by norm_num) rfl rfl,
    missing_results_key_empty.2 1 "b?" [] _ _ [] [] rfl (by norm_num) rfl rfl⟩

theorem tagResults_mem (q : String) (rs : List JValue) (recs : List Result)
    (h : tagResults q rs = .ok recs) :
    ∀ rec ∈ recs, ∃ fields, rec = pyDict [("query", JValue.str q)] fields := by
  induction rs generalizing recs with
  | nil =>
    simp only [tagResults] at h
    cases h
    intro rec hrec
    exact absurd hrec (List.not_mem_nil rec)
  | cons r t ih =>
    cases r with
    | obj fields =>
      simp only [tagResults] at h
      cases ht : tagResults q t with
      | ok recs' =>
        rw [ht] at h
        have hlist : pyDict [("query", JValue.str q)] fields :: recs' = recs :=
          Except.ok.inj h
        subst hlist
        intro rec hrec
        rcases List.mem_cons.mp hrec with h1 | h2
        · exact ⟨fields, h1⟩
        · exact ih recs' ht rec h2
      | error e =>
        rw [ht] at h
        exact absurd h (by simp)
    | str s => simp only [tagResults] at h; exact absurd h (by simp)
    | num n => simp only [tagResults] at h; exact absurd h (by simp)
    | arr vs => simp only [tagResults] at h; exact absurd h (by simp)

/-- Claim C6, counterexample.  The claim states every record returned by
`search(q)` carries a `query` field equal to the original query string.
The dict literal `{"query": query, **result}` (main.py line 130) lets a
service record's own `query` key overwrite the tag: for query `"abc"` and
a service record `{"query": "HACK"}` the returned record's `query` field
is `"HACK"`, not `"abc"`. -/
theorem search_query_tag_overridden :
    search 1 "b" "abc"
        (fun _ => [⟨200, .obj [("results", .arr [.obj [("query", .str "HACK")]])]⟩])
      = (.ok [[("query", .str "HACK")]], [])
    ∧ pyLookup [("query", JValue.str "HACK")] "query" ≠ some (JValue.str "abc") := by
  constructor
  · rfl
  · intro h
    have h0 : pyLookup [("query", JValue.str "HACK")] "query"
        = some (JValue.str "HACK") := rfl
    rw [h0] at h
    have h1 : JValue.str "HACK" = JValue.str "abc" := Option.some.inj h
    have h2 : "HACK" = "abc" := JValue.str.inj h1
    exact absurd h2 (by decide)

/-- Claim C6 (amended).  Every record `search` returns is the service
record spread over the tag `{"query": q}`: it always carries a `query`
key, and that key equals the original query string whenever the service
record does not itself contain a `query` key (a service-supplied `query`
value wins).  The issued URL carries
`returnGeom=Y&getAddrDetails=Y&pageNum=1`. -/
theorem search_query_tagging (mult : ℚ) (base q : String)
    (env : String → List HttpResponse) (recs : List Result) (sleeps : List ℤ)
    (h : search mult base q env = (.ok recs, sleeps)) :
    (∀ rec ∈ recs, ∃ fields, rec = pyDict [("query", JValue.str q)] fields ∧
        (pyLookup rec "query").isSome = true ∧
        (pyLookup fields "query" = none →
          pyLookup rec "query" = some (JValue.str q)))
    ∧ ∃ p, searchUrl base q = p ++ "&returnGeom=Y&getAddrDetails=Y&pageNum=1" := by
  constructor
  · have hextract : ∀ body recs', extract_results q body = .ok recs' →
        ∃ rs, tagResults q rs = .ok recs' := by
      intro body recs' hb
      cases body with
      | obj l =>
        simp only [extract_results] at hb
        cases hres : pyLookup l "results" with
        | none =>
          rw [hres] at hb
          exact ⟨[], hb⟩
        | some v =>
          rw [hres] at hb
          cases v with
          | arr rs => exact ⟨rs, hb⟩
          | str s => exact absurd hb (by simp)
          | num n => exact absurd hb (by simp)
          | obj l' => exact absurd hb (by simp)
      | str s => simp only [extract_results] at hb; exact absurd hb (by simp)
      | num n => simp only [extract_results] at hb; exact absurd hb (by simp)
      | arr vs => simp only [extract_results] at hb; exact absurd hb (by simp)
    have htag : ∃ rs, tagResults q rs = .ok recs := by
      rw [search, Prod.mk.injEq] at h
      obtain ⟨h1, _⟩ := h
      revert h1
      cases (send_request mult 1 (env (searchUrl base q))).1 with
      | error e => intro h1; exact absurd h1 (by simp)
      | ok body => intro h1; exact hextract body recs h1
    obtain ⟨rs, hrs⟩ := htag
    intro rec hrec
    obtain ⟨fields, hfields⟩ := tagResults_mem q rs recs hrs rec hrec
    refine ⟨fields, hfields, ?_, ?_⟩
    · rw [hfields]
      exact pyLookup_pyDict_isSome [("query", JValue.str q)] fields "query" rfl
    · intro hnone
      have hfind : fields.find? (fun p => p.1 == "query") = none :=
        Option.map_eq_none'.mp hnone
      have hne : ∀ p ∈ fields, p.1 ≠ "query" := by
        intro p hp he
        exact (List.find?_eq_none.mp hfind p hp) (by simp [he])
      rw [hfields, pyLookup_pyDict_of_ne _ _ _ hne]
      rfl
  · exact ⟨base ++ "/common/elastic/search?searchVal=" ++ q, rfl⟩

/-- Claim C6, witness: the record returned for query `"a"` carries a
`query` key. -/
theorem search_query_tagging_witness :
    (pyLookup [("query", JValue.str "a"), ("SEARCHVAL", JValue.str "X")]
      "query").isSome = true := by
  have h := search_query_tagging 1 "b" "a"
    (fun _ => [⟨200, .obj [("results", .arr [.obj [("SEARCHVAL", .str "X")]])]⟩])
    [[("query", JValue.str "a"), ("SEARCHVAL", JValue.str "X")]] [] rfl
  obtain ⟨fields, hf, hsome, _⟩ := h.1 _ (List.mem_singleton.mpr rfl)
  exact hsome

/-!
## Claims about the batch orchestrator (`searches`)
-/

/-- For a duplicate-free query list, the entry of any query is exactly
the collected outcome of its (unique) submitted future, whatever the
completion order. -/
theorem searches_lookup_nodup (queries : List String)
    (outcomes : List (Except String (List Result))) (order : List Nat)
    (horder : order.Perm (List.range queries.length)) (hnodup : queries.Nodup)
    (j : Nat) (hj : j < queries.length) :
    pyLookup (searches queries outcomes order) (queries.getD j "")
      = some (outcomeRecords (outcomes.getD j (.ok []))) := by
  have hjmem : j ∈ order := horder.mem_iff.mpr (List.mem_range.mpr hj)
  obtain ⟨pre, post, rfl⟩ := List.append_of_mem hjmem
  have hnd : (pre ++ j :: post).Nodup :=
    horder.nodup_iff.mpr (List.nodup_range _)
  have hjpost : j ∉ post := (List.nodup_cons.mp (List.nodup_append.mp hnd).2.1).1
  have hpost : ∀ p ∈ post.map (completedEntry queries outcomes),
      p.1 ≠ queries.getD j "" := by
    intro p hp
    obtain ⟨j', hj', rfl⟩ := List.mem_map.mp hp
    have hj'mem : j' ∈ List.range queries.length :=
      horder.mem_iff.mp (List.mem_append_right pre (List.mem_cons_of_mem j hj'))
    have hj'lt : j' < queries.length := List.mem_range.mp hj'mem
    have hj'ne : j' ≠ j := fun he => hjpost (he ▸ hj')
    exact getD_ne_of_nodup queries hnodup j' j hj'lt hj hj'ne
  rw [searches, List.map_append, List.map_cons]
  exact pyLookup_pyDict_last_write [] _ _ _ _ hpost

/-- Claim C3.  For every query list (empty and duplicate-laden included)
and every completion order of the submitted futures, the mapping
`searches` returns has key set equal to the set of distinct queries, one
entry per distinct query, and the value under a key is the record list
written by the last-completed future of that query (last-write-wins,
main.py lines 151-155). -/
theorem searches_key_set_complete (queries : List String)
    (outcomes : List (Except String (List Result))) (order : List Nat)
    (horder : order.Perm (List.range queries.length)) :
    ((searches queries outcomes order).map Prod.fst).toFinset = queries.toFinset
    ∧ ((searches queries outcomes order).map Prod.fst).Nodup
    ∧ (∀ pre i post, order = pre ++ i :: post →
        (∀ j ∈ post, queries.getD j "" ≠ queries.getD i "") →
        pyLookup (searches queries outcomes order) (queries.getD i "")
          = some (completedEntry queries outcomes i).2) := by
  refine ⟨?_, ?_, ?_⟩
  · rw [searches, keys_toFinset_pyDict, List.map_map]
    have h2 : (Prod.fst ∘ completedEntry queries outcomes)
        = fun i => queries.getD i "" := funext fun i => rfl
    rw [h2, List.toFinset_eq_of_perm _ _ (horder.map _), map_getD_range]
    simp
  · rw [searches]
    exact keys_nodup_pyDict [] _ List.nodup_nil
  · intro pre i post hdecomp hpost
    rw [searches, hdecomp, List.map_append, List.map_cons]
    refine pyLookup_pyDict_last_write [] _ _ _ _ ?_
    intro p hp
    obtain ⟨j, hj, rfl⟩ := List.mem_map.mp hp
    exact hpost j hj

/-- Claim C3, witness: three queries with a duplicate, completion order
`[2, 0, 1]` — the key set is the two distinct strings. -/
theorem searches_key_set_complete_witness :
    ((searches ["a", "b", "a"]
        [.ok [], .ok [], .error "x"] [2, 0, 1]).map Prod.fst).toFinset
      = (["a", "b", "a"] : List String).toFinset := by
  have h := searches_key_set_complete ["a", "b", "a"]
    [.ok [], .ok [], .error "x"] [2, 0, 1] (by decide)
  exact h.1

/-- Claim C4, counterexample.  The claim quantifies over every query
list, but with duplicate query strings a failing future's error record
is overwritten when a later-completing duplicate succeeds: for queries
`["a", "a"]`, outcome 0 an exception and outcome 1 a success, completion
order `[0, 1]` leaves the success records under key `"a"`, not the error
record. -/
theorem searches_duplicate_failure_overwritten :
    pyLookup (searches ["a", "a"]
        [.error "boom", .ok [[("SEARCHVAL", JValue.str "X")]]] [0, 1]) "a"
      = some [[("SEARCHVAL", JValue.str "X")]]
    ∧ (some [[("SEARCHVAL", JValue.str "X")]]
        ≠ some [[("error", JValue.str "boom")]]) := by
  constructor
  · rfl
  · intro h
    have h1 := List.cons.inj (Option.some.inj h)
    have h2 := List.cons.inj h1.1
    have h3 := Prod.mk.inj h2.1
    exact absurd h3.1 (by decide)

/-- Claim C4 (amended).  For a duplicate-free query list: when the
future of query `i` raises an exception with message `msg`, the batch
loop stores the single-element record `[{"error": msg}]` under that
query's key, every other query keeps the records of its own outcome, and
no exception escapes (`searches` is total: the `try/except` of main.py
lines 152-155 converts the failure into data).  With duplicates the
last-completed future wins instead (see the counterexample). -/
theorem searches_fault_isolation (queries : List String)
    (outcomes : List (Except String (List Result))) (order : List Nat)
    (i : Nat) (msg : String)
    (horder : order.Perm (List.range queries.length))
    (hnodup : queries.Nodup) (hi : i < queries.length)
    (houtcome : outcomes.getD i (.ok []) = .error msg) :
    pyLookup (searches queries outcomes order) (queries.getD i "")
        = some [[("error", JValue.str msg)]]
    ∧ (∀ j, j < queries.length → j ≠ i →
        pyLookup (searches queries outcomes order) (queries.getD j "")
          = some (outcomeRecords (outcomes.getD j (.ok [])))) := by
  constructor
  · rw [searches_lookup_nodup queries outcomes order horder hnodup i hi, houtcome]
    rfl
  · intro j hj _
    exact searches_lookup_nodup queries outcomes order horder hnodup j hj

/-- Claim C4, witness: five distinct queries, the third raising — its
entry is the error record, a healthy neighbour keeps its records. -/
theorem searches_fault_isolation_witness :
    pyLookup (searches ["q0", "q1", "q2", "q3", "q4"]
        [.ok [[("SEARCHVAL", JValue.str "r0")]],
         .ok [[("SEARCHVAL", JValue.str "r1")]],
         .error "boom",
         .ok [[("SEARCHVAL", JValue.str "r3")]],
         .ok [[("SEARCHVAL", JValue.str "r4")]]] [4, 3, 2, 1, 0]) "q2"
      = some [[("error", JValue.str "boom")]]
    ∧ pyLookup (searches ["q0", "q1", "q2", "q3", "q4"]
        [.ok [[("SEARCHVAL", JValue.str "r0")]],
         .ok [[("SEARCHVAL", JValue.str "r1")]],
         .error "boom",
         .ok [[("SEARCHVAL", JValue.str "r3")]],
         .ok [[("SEARCHVAL", JValue.str "r4")]]] [4, 3, 2, 1, 0]) "q1"
      = some [[("SEARCHVAL", JValue.str "r1")]] := by
  have h := searches_fault_isolation ["q0", "q1", "q2", "q3", "q4"]
    [.ok [[("SEARCHVAL", JValue.str "r0")]],
     .ok [[("SEARCHVAL", JValue.str "r1")]],
     .error "boom",
     .ok [[("SEARCHVAL", JValue.str "r3")]],
     .ok [[("SEARCHVAL", JValue.str "r4")]]] [4, 3, 2, 1, 0] 2 "boom"
    (by decide) (by decide) (by norm_num) rfl
  exact ⟨h.1, h.2 1 (by norm_num) (by norm_num)⟩

/-!
## Claims about the token machinery (`headers` / `access_token`)
-/

theorem store_token_ok_inv (s : ClientState) (r : Except PyError (JValue × Int))
    (tok : JValue) (s' : ClientState) (h : store_token s r = .ok (tok, s')) :
    ∃ exp, r = .ok (tok, exp) ∧ s' = { s with tokenCache := some (tok, exp) } := by
  cases r with
  | error e => simp [store_token] at h
  | ok te =>
    obtain ⟨t0, e0⟩ := te
    simp only [store_token] at h
    have h2 := Except.ok.inj h
    rw [Prod.mk.injEq] at h2
    obtain ⟨ht, hs'⟩ := h2
    subst ht
    subst hs'
    exact ⟨e0, rfl, rfl⟩

theorem refresh_token_ok_inv (mult : ℚ) (now : Int) (auth : List HttpResponse)
    (s : ClientState) (tok : JValue) (s' : ClientState) (sleeps : List ℤ)
    (hauth : ∀ body t e, (send_request mult 1 auth).1 = .ok body →
      parse_auth body = .ok (t, e) → now ≤ e)
    (h : refresh_token mult auth s = (.ok (tok, s'), sleeps)) :
    ∃ exp, s'.tokenCache = some (tok, exp) ∧ now ≤ exp := by
  simp only [refresh_token] at h
  rw [Prod.mk.injEq] at h
  obtain ⟨h1, _⟩ := h
  revert h1
  cases hs : (send_request mult 1 auth).1 with
  | error e => intro h1; simp at h1
  | ok body =>
    intro h1
    obtain ⟨exp, hr, hs'⟩ := store_token_ok_inv s (parse_auth body) tok s' h1
    subst hs'
    exact ⟨exp, rfl, hauth body tok exp hs hr⟩

theorem access_token_ok_inv (mult : ℚ) (now : Int) (auth : List HttpResponse)
    (s : ClientState) (tok : JValue) (s' : ClientState) (sleeps : List ℤ)
    (hauth : ∀ body t e, (send_request mult 1 auth).1 = .ok body →
      parse_auth body = .ok (t, e) → now ≤ e)
    (h : access_token mult now auth s = (.ok (tok, s'), sleeps)) :
    ∃ exp, s'.tokenCache = some (tok, exp) ∧ now ≤ exp := by
  unfold access_token at h
  split at h
  · exact refresh_token_ok_inv mult now auth s tok s' sleeps hauth h
  next t0 e0 heq =>
    split at h
    · exact refresh_token_ok_inv mult now auth s tok s' sleeps hauth h
    next hgt =>
      have h2 := Prod.mk.inj h
      have h3 := Except.ok.inj h2.1
      have h4 := Prod.mk.inj h3
      refine ⟨e0, ?_, not_lt.mp hgt⟩
      rw [← h4.2, heq, h4.1]

theorem headers_refresh_ok_inv (mult : ℚ) (now : Int) (auth : List HttpResponse)
    (email password : String) (s : ClientState) (h : JValue) (s' : ClientState)
    (sleeps : List ℤ)
    (hauth : ∀ body t e, (send_request mult 1 auth).1 = .ok body →
      parse_auth body = .ok (t, e) → now ≤ e)
    (hr : headers_refresh mult now auth email password s = (.ok (h, s'), sleeps)) :
    ∃ tok exp, h = JValue.obj [("Authorization", tok)]
      ∧ s'.tokenCache = some (tok, exp) ∧ now ≤ exp := by
  unfold headers_refresh at hr
  split at hr
  · split at hr
    next tok0 s2 sl0 heq =>
      have h2 := Prod.mk.inj hr
      have h3 := Except.ok.inj h2.1
      have h4 := Prod.mk.inj h3
      obtain ⟨exp, hexp, hle⟩ :=
        access_token_ok_inv mult now auth s tok0 s2 sl0 hauth heq
      refine ⟨tok0, exp, h4.1.symm, ?_, hle⟩
      rw [← h4.2]
      exact hexp
    next e sl0 heq => simp at hr
  · simp at hr

/-- Claim C7, counterexample.  The claim states that whenever
`now ≥ expiry_timestamp` the token is refreshed before reuse, never
reusing a token at or past its expiry.  At `now = expiry` exactly, the
cached-headers check `expiry > now` (main.py line 59) fails, but
`access_token` refreshes only when `now > expiry` (line 73), so the
stale token is returned unrefreshed: with a fresh token available from
the auth endpoint, `headers` still attaches the old token (no sleep, no
auth request, state unchanged) although `now < expiry` is false. -/
theorem headers_reuses_token_at_expiry :
    headers (3/2) 100
        [⟨200, .obj [("access_token", .str "fresh"),
                     ("expiry_timestamp", .num 999)]⟩]
        "e" "p"
        ⟨some (.obj [("Authorization", .str "old")]), some (.str "old", 100)⟩
      = (.ok (.obj [("Authorization", .str "old")],
          ⟨some (.obj [("Authorization", .str "old")]),
           some (.str "old", 100)⟩), [])
    ∧ ¬ ((100 : Int) < 100) := by
  exact ⟨rfl, by norm_num⟩

/-- Claim C7 (amended).  Provided the cached `_headers` dict is
consistent with the cached token (`WFState`, the invariant the
`headers` property maintains) and the auth endpoint only hands out
expiries `≥ now`, every successful `headers` call returns an
`Authorization` header whose token satisfies `now ≤ expiry` — the
boundary is inclusive, not the claim's strict `now < expiry`: at
`now = expiry` exactly, the cached token is reused without refresh
because `access_token` refreshes only when `now > expiry`. -/
theorem headers_token_fresh_enough (mult : ℚ) (now : Int)
    (auth : List HttpResponse) (email password : String) (s : ClientState)
    (h : JValue) (s' : ClientState) (sleeps : List ℤ)
    (hwf : WFState s)
    (hauth : ∀ body t e, (send_request mult 1 auth).1 = .ok body →
      parse_auth body = .ok (t, e) → now ≤ e)
    (hrun : headers mult now auth email password s = (.ok (h, s'), sleeps)) :
    ∃ tok exp, h = JValue.obj [("Authorization", tok)]
      ∧ s'.tokenCache = some (tok, exp) ∧ now ≤ exp := by
  unfold headers at hrun
  split at hrun
  next hdr x exp hc1 hc2 =>
    split at hrun
    next hgt =>
      have h2 := Prod.mk.inj hrun
      have h3 := Except.ok.inj h2.1
      have h4 := Prod.mk.inj h3
      obtain ⟨tok, exp', htc, hhdr⟩ := hwf hdr hc1
      rw [hc2] at htc
      have hpair := Option.some.inj htc
      have hxe := Prod.mk.inj hpair
      refine ⟨tok, exp, ?_, ?_, le_of_lt hgt⟩
      · rw [← h4.1]
        exact hhdr
      · rw [← h4.2, hc2, hxe.1]
    next hngt =>
      exact headers_refresh_ok_inv mult now auth email password s h s' sleeps
        hauth hrun
  next => simp at hrun
  next =>
    exact headers_refresh_ok_inv mult now auth email password s h s' sleeps
      hauth hrun

/-- Claim C7, witness: a cached token valid strictly beyond `now` is
returned and satisfies the inclusive bound. -/
theorem headers_token_fresh_enough_witness :
    (ClientState.mk (some (JValue.obj [("Authorization", JValue.str "t")]))
        (some (JValue.str "t", 100))).tokenCache
      = some (JValue.str "t", 100)
    ∧ (50 : Int) ≤ 100 := by
  obtain ⟨tok, exp, hh, htc, hle⟩ := headers_token_fresh_enough 1 50 [] "e" "p"
    ⟨some (.obj [("Authorization", .str "t")]), some (.str "t", 100)⟩
    (.obj [("Authorization", .str "t")])
    ⟨some (.obj [("Authorization", .str "t")]), some (.str "t", 100)⟩ []
    (fun hd heq => ⟨JValue.str "t", 100, rfl, (Option.some.inj heq).symm⟩)
    (fun body t e hb => absurd hb (by simp [send_request]))
    rfl
  have h0 : (ClientState.mk (some (JValue.obj [("Authorization", JValue.str "t")]))
      (some (JValue.str "t", 100))).tokenCache = some (JValue.str "t", 100) := rfl
  have htok : JValue.str "t" = tok ∧ (100 : Int) = exp :=
    Prod.mk.inj (Option.some.inj (h0.symm.trans htc))
  refine ⟨rfl, ?_⟩
  rw [htok.2]
  exact hle

/-- Claim C9, counterexample.  The claim states a failed auth attempt
(auth endpoint returning a non-success status) raises to the caller and
is never retried automatically.  But the auth POST goes through
`_send_request` (main.py lines 75-80), which retries on 429: an auth
exchange scripted `[429, 200]` is retried after one backoff sleep and
succeeds — the non-success 429 response neither raises nor stays
unretried. -/
theorem auth_429_retried :
    access_token (3/2) 0
        [⟨429, .obj []⟩,
         ⟨200, .obj [("access_token", .str "fresh"),
                     ("expiry_timestamp", .num 999)]⟩]
        ⟨none, none⟩
      = (.ok (.str "fresh", ⟨none, some (.str "fresh", 999)⟩), [1]) := by
  have h0 : access_token (3/2) 0
      [⟨429, .obj []⟩,
       ⟨200, .obj [("access_token", .str "fresh"),
                   ("expiry_timestamp", .num 999)]⟩]
      ⟨none, none⟩
      = (.ok (.str "fresh", ⟨none, some (.str "fresh", 999)⟩), [pyInt 1]) := rfl
  rw [h0]
  norm_num [pyInt]

/-- Claim C9 (amended).  With both credentials missing (either string
empty) and no usable cached headers, `headers` raises the credentials
error before any auth request is issued (the result holds for every auth
environment, with zero sleeps); and an auth response with status `≥ 300`
other than 429 makes `access_token` raise immediately, unretried, with
zero sleeps.  A 429 from the auth endpoint, however, is retried with
backoff like any other request (see the counterexample). -/
theorem auth_failure_handling :
    (∀ (mult : ℚ) (now : Int) (auth : List HttpResponse)
        (email password : String) (s : ClientState),
      WFState s →
      (s.headersCache = none ∨ ∀ tok exp, s.tokenCache = some (tok, exp) → exp ≤ now) →
      (email = "" ∨ password = "") →
      headers mult now auth email password s = (.error .credentialsError, []))
    ∧ (∀ (mult : ℚ) (now : Int) (r : HttpResponse) (rest : List HttpResponse)
        (s : ClientState),
      (s.tokenCache = none ∨ ∃ tok exp, s.tokenCache = some (tok, exp) ∧ now > exp) →
      300 ≤ r.status → r.status ≠ 429 →
      access_token mult now (r :: rest) s
        = (.error (.requestError r.status r.body), [])) := by
  constructor
  · intro mult now auth email password s hwf hnv hcred
    have hcred' : ¬ (email ≠ "" ∧ password ≠ "") := by
      rcases hcred with h | h <;> simp [h]
    have hrefresh : headers_refresh mult now auth email password s
        = (.error .credentialsError, []) := by
      unfold headers_refresh
      rw [if_neg hcred']
    unfold headers
    split
    next hdr x exp hc1 hc2 =>
      have hle : exp ≤ now := by
        rcases hnv with h | h
        · rw [h] at hc1
          cases hc1
        · exact h x exp hc2
      rw [if_neg (not_lt.mpr hle)]
      exact hrefresh
    next hdr hc1 hc2 =>
      obtain ⟨tok, exp, htc, _⟩ := hwf hdr hc1
      rw [htc] at hc2
      cases hc2
    next => exact hrefresh
  · intro mult now r rest s hnv h300 h429
    have hsr : send_request mult 1 (r :: rest)
        = (.error (.requestError r.status r.body), []) :=
      send_request_non429_error mult 1 r rest h300 h429
    have hrefresh : refresh_token mult (r :: rest) s
        = (.error (.requestError r.status r.body), []) := by
      simp only [refresh_token, hsr]
    unfold access_token
    rcases hnv with h | ⟨tok, exp, htc, hgt⟩
    · rw [h]
      exact hrefresh
    · rw [htc]
      show (if now > exp then refresh_token mult (r :: rest) s
        else (.ok (tok, s), [])) = _
      rw [if_pos hgt]
      exact hrefresh

/-- Claim C9, witness: empty email with no cached token fails with the
credentials error (no sleeps, any auth environment); a 401 from the auth
endpoint raises at once with zero sleeps. -/
theorem auth_failure_handling_witness :
    headers 1 0 [] "" "p" ⟨none, none⟩ = (.error .credentialsError, [])
    ∧ access_token 1 0 [⟨401, .str "unauthorized"⟩] ⟨none, none⟩
      = (.error (.requestError 401 (.str "unauthorized")), []) := by
  refine ⟨auth_failure_handling.1 1 0 [] "" "p" ⟨none, none⟩
      (fun hd heq => by cases heq) (Or.inl rfl) (Or.inl rfl),
    auth_failure_handling.2 1 0 ⟨401, .str "unauthorized"⟩ [] ⟨none, none⟩
      (Or.inl rfl) (by norm_num) (by norm_num)⟩

/-!
## Claim about concurrent token refresh
-/

/-- Claim C8, counterexample.  The claim states that under concurrent
workers observing an expired token, exactly one auth request is issued
and all callers observe the same refreshed token.  `access_token` has no
lock (main.py lines 69-89): in the interleaving where both workers pass
the expiry check before either refreshes, each issues its own auth
request — two auth requests total, and the workers end up holding
different tokens. -/
theorem concurrent_refresh_duplicate_requests :
    (run 200 1000 [false, true, false, true]
        ⟨some (.str "old", 100), 0, 0, 0, none, none⟩).authCount = 2
    ∧ (run 200 1000 [false, true, false, true]
        ⟨some (.str "old", 100), 0, 0, 0, none, none⟩).res0
      = some (JValue.num 0)
    ∧ (run 200 1000 [false, true, false, true]
        ⟨some (.str "old", 100), 0, 0, 0, none, none⟩).res1
      = some (JValue.num 1)
    ∧ JValue.num 0 ≠ JValue.num 1 := by
  refine ⟨rfl, rfl, rfl, ?_⟩
  intro h
  exact absurd (JValue.num.inj h) (by norm_num)

/-- Claim C8 (amended).  Because `access_token` performs no
synchronization, the number of auth requests issued under concurrent
expiry depends on the interleaving: when both workers check before
either refreshes, two auth requests are issued and the workers observe
different tokens; a single auth request with a shared token happens only
in schedules where one worker's refresh completes before the other
worker's expiry check. -/
theorem concurrent_refresh_schedule_dependent :
    ((run 200 1000 [false, true, false, true]
        ⟨some (.str "old", 100), 0, 0, 0, none, none⟩).authCount = 2
      ∧ (run 200 1000 [false, true, false, true]
          ⟨some (.str "old", 100), 0, 0, 0, none, none⟩).res0
        ≠ (run 200 1000 [false, true, false, true]
          ⟨some (.str "old", 100), 0, 0, 0, none, none⟩).res1)
    ∧ ((run 200 1000 [false, false, true, true]
        ⟨some (.str "old", 100), 0, 0, 0, none, none⟩).authCount = 1
      ∧ (run 200 1000 [false, false, true, true]
          ⟨some (.str "old", 100), 0, 0, 0, none, none⟩).res0
        = (run 200 1000 [false, false, true, true]
          ⟨some (.str "old", 100), 0, 0, 0, none, none⟩).res1) := by
  refine ⟨⟨rfl, ?_⟩, rfl, rfl⟩
  intro h
  have h1 : some (JValue.num 0) = some (JValue.num 1) := h
  exact absurd (JValue.num.inj (Option.some.inj h1)) (by norm_num)

end OneMap
